import Mathlib

/-
Verification development for torch/_functorch/autograd_function.py.

The source file wires user-defined autograd.Function objects into the
functorch transform machinery.  We give a shallow embedding of its data
model and operations:

  * Python object identity is modelled by an explicit object id (a Nat)
    carried by every tensor object; non-tensor leaves get ids in a
    disjoint (odd) id space, so a tensor is never object-identical to a
    non-tensor, exactly as in Python.
  * pytrees are finite rose trees with tensor / non-tensor leaves;
    tree_flatten, tree_unflatten and tree_map_only are translated from
    the generic pytree utilities the source calls.
  * the functorch interpreter stack, grad mode and the
    enable_autograd_function flag form an explicit state record; the
    scoped context managers of the source (enable_grad, interpreter
    lower, enable_autograd_function) become scoped state updates that
    are restored on every exit path.
  * raised Python exceptions become an explicit error result.
-/

namespace Functorch

/-- The four functorch transform types of TransformType (external enum
consumed by the source via py_impl registration). -/
inductive TransformType where
  | Grad
  | Vmap
  | Jvp
  | Functionalize
deriving DecidableEq

/-- An interpreter bound to one transform layer: it exposes a level and
the transform type of its layer (spec section 3, TransformLayer /
Interpreter). -/
structure Interpreter where
  level : Nat
  ttype : TransformType
deriving DecidableEq

/-- Modelled from the spec: the process-wide functorch state that the
source manipulates only through scoped context managers — the transform
interpreter stack (top at the head), the gradient-recording mode toggled
by torch.enable_grad, and the flag toggled by enable_autograd_function.
The stack bookkeeping itself lives outside the source file. -/
structure FunctorchState where
  stack : List Interpreter
  gradMode : Bool
  autogradFunctionAllowed : Bool
deriving DecidableEq

/-- A raised Python exception, by class and message. -/
inductive PyError where
  | runtimeError (msg : String)
  | typeError (msg : String)
deriving DecidableEq

/-- A tensor object: either a plain tensor or a grad wrapper produced at
some transform level.  The field oid is the Python object id; distinct
live objects carry distinct oids in any scenario we consider. -/
inductive Tensor where
  | base (oid : Nat)
  | wrapper (oid : Nat) (level : Nat) (inner : Tensor)
deriving DecidableEq

/-- The Python object id of a tensor object. -/
def Tensor.oid : Tensor → Nat
  | .base i => i
  | .wrapper i _ _ => i

/-- A pytree leaf value: a tensor object or a non-tensor constant. -/
inductive PyVal where
  | tensor (t : Tensor)
  | const (c : Int)
deriving DecidableEq

instance : Inhabited PyVal := ⟨PyVal.const 0⟩

/-- The Python object id of a leaf value.  Tensor ids are even and
non-tensor ids odd, so a tensor output is never object-identical to a
non-tensor input, as in Python. -/
def PyVal.oid : PyVal → Nat
  | .tensor t => 2 * t.oid
  | .const c => 2 * c.natAbs + 1

/-- Modelled from the spec: the external wrapper primitive
_wrap_for_grad(x, level) creates a fresh wrapper object tagged with the
owning transform level.  The object id chosen for the fresh wrapper is
irrelevant to every claim (new wrappers are never looked up by id), so
it is fixed deterministically. -/
def wrap_for_grad (x : Tensor) (level : Nat) : Tensor :=
  Tensor.wrapper (x.oid + level + 1) level x

/-- Modelled from the spec: the external wrapper primitive
_unwrap_for_grad(x, level) consumes a wrapper owned by the given level,
yielding the tensor underneath; any other tensor is returned as is. -/
def unwrap_for_grad (x : Tensor) (level : Nat) : Tensor :=
  match x with
  | .wrapper _ l inner => if l = level then inner else x
  | .base _ => x

/-- A pytree: an arbitrary nesting of leaves, as handled by the generic
torch.utils._pytree utilities that the source calls. -/
inductive PyTree (α : Type) where
  | leaf (a : α)
  | node (children : List (PyTree α))

/-- The structure part returned by tree_flatten: the tree with its
leaves erased. -/
inductive TreeSpec where
  | leaf
  | node (children : List TreeSpec)

mutual

/-- The ordered list of leaves of a pytree (the first component of
pytree.tree_flatten). -/
def PyTree.flatten {α : Type} : PyTree α → List α
  | .leaf a => [a]
  | .node cs => flattenList cs

/-- Leaves of a list of pytrees, in order. -/
def flattenList {α : Type} : List (PyTree α) → List α
  | [] => []
  | t :: ts => PyTree.flatten t ++ flattenList ts

end

mutual

/-- The structure of a pytree (the second component of
pytree.tree_flatten). -/
def PyTree.spec {α : Type} : PyTree α → TreeSpec
  | .leaf _ => TreeSpec.leaf
  | .node cs => TreeSpec.node (specList cs)

/-- Structures of a list of pytrees. -/
def specList {α : Type} : List (PyTree α) → List TreeSpec
  | [] => []
  | t :: ts => PyTree.spec t :: specList ts

end

/-- pytree.tree_flatten: leaves plus structure. -/
def tree_flatten {α : Type} (t : PyTree α) : List α × TreeSpec :=
  (t.flatten, t.spec)

mutual

/-- Number of leaves a tree structure expects. -/
def TreeSpec.numLeaves : TreeSpec → Nat
  | .leaf => 1
  | .node cs => numLeavesList cs

/-- Number of leaves a list of tree structures expects. -/
def numLeavesList : List TreeSpec → Nat
  | [] => 0
  | s :: ss => TreeSpec.numLeaves s + numLeavesList ss

end

mutual

/-- Rebuild one tree from a structure, consuming leaves from the front
of the list and returning the leftover leaves. -/
def unflattenAux {α : Type} [Inhabited α] : TreeSpec → List α → PyTree α × List α
  | .leaf, [] => (PyTree.leaf default, [])
  | .leaf, x :: rest => (PyTree.leaf x, rest)
  | .node ss, xs =>
    let r := unflattenListAux ss xs
    (PyTree.node r.1, r.2)

/-- Rebuild a list of trees from a list of structures. -/
def unflattenListAux {α : Type} [Inhabited α] : List TreeSpec → List α → List (PyTree α) × List α
  | [], xs => ([], xs)
  | s :: ss, xs =>
    let r := unflattenAux s xs
    let rs := unflattenListAux ss r.2
    (r.1 :: rs.1, rs.2)

end

/-- pytree.tree_unflatten(values, spec): reconstruct the nested
structure from the processed flat sequence. -/
def tree_unflatten {α : Type} [Inhabited α] (xs : List α) (s : TreeSpec) : PyTree α :=
  (unflattenAux s xs).1

/-- Apply a function to a single leaf only when it is a tensor, leaving
non-tensor leaves untouched (the per-leaf action of
pytree.tree_map_only(torch.Tensor, f, tree)). -/
def mapOnlyTensorLeaf (f : Tensor → Tensor) : PyVal → PyVal
  | .tensor t => PyVal.tensor (f t)
  | .const c => PyVal.const c

mutual

/-- pytree.tree_map_only(torch.Tensor, f, tree): map f over the tensor
leaves of the tree, preserving structure and non-tensor leaves. -/
def tree_map_only_tensor (f : Tensor → Tensor) : PyTree PyVal → PyTree PyVal
  | .leaf v => PyTree.leaf (mapOnlyTensorLeaf f v)
  | .node cs => PyTree.node (tree_map_only_tensor_list f cs)

/-- tree_map_only over a list of subtrees. -/
def tree_map_only_tensor_list (f : Tensor → Tensor) : List (PyTree PyVal) → List (PyTree PyVal)
  | [] => []
  | t :: ts => tree_map_only_tensor f t :: tree_map_only_tensor_list f ts

end

/-- Lookup in the Python dict built by a comprehension: iterating the
comprehension in order, a later binding of the same key overwrites an
earlier one, so lookup returns the value of the LAST entry carrying the
key. -/
def dictFind : List (Nat × PyVal) → Nat → Option PyVal
  | [], _ => none
  | e :: rest, k =>
    match dictFind rest k with
    | some v => some v
    | none => if e.1 = k then some e.2 else none

/-- The loop body of wrap_outputs_maintaining_identity: a non-tensor
output passes through; a tensor output whose object id is a key of the
identity dict is replaced by the mapped original input object; any
other tensor output is wrapped fresh at the level. -/
def wrap_one (d : List (Nat × PyVal)) (level : Nat) : PyVal → PyVal
  | .const c => PyVal.const c
  | .tensor t =>
    match dictFind d (PyVal.oid (PyVal.tensor t)) with
    | some orig => orig
    | none => PyVal.tensor (wrap_for_grad t level)

/-- The identity dict of wrap_outputs_maintaining_identity: a dict
comprehension over zip(flat_unwrapped_inputs, flat_orig_inputs) keyed by
the object id of the unwrapped input, valued at the co-indexed original
input. -/
def unwrapped_input_to_orig_input (unwrapped_inputs orig_inputs : PyTree PyVal) :
    List (Nat × PyVal) :=
  ((unwrapped_inputs.flatten).zip (orig_inputs.flatten)).map (fun p => (PyVal.oid p.1, p.2))

/-- wrap_outputs_maintaining_identity(outputs, unwrapped_inputs,
orig_inputs, level): flatten all three trees, build the identity dict
from the id of each flattened unwrapped input to the co-indexed original
input, process each flattened output with wrap_one, and rebuild the
output structure. -/
def wrap_outputs_maintaining_identity
    (outputs unwrapped_inputs orig_inputs : PyTree PyVal) (level : Nat) : PyTree PyVal :=
  let d := unwrapped_input_to_orig_input unwrapped_inputs orig_inputs
  let flat_outputs := outputs.flatten
  let spec := outputs.spec
  let result := flat_outputs.map (wrap_one d level)
  tree_unflatten result spec

/-- The context object handed to setup_context / backward.  Its internal
workings belong to the external autograd engine; the claims only pass it
through verbatim. -/
structure AutogradCtx where
  saved : List PyVal

/-- A user-supplied autograd.Function descriptor: its apply entry point
(the classmethod invoked when no transform intercepts the call) and the
three operations required of a differentiable-function descriptor. -/
structure AutogradFunction where
  apply : PyTree PyVal → List (String × PyVal) → Except PyError (PyTree PyVal)
  setup_context : AutogradCtx → PyTree PyVal → PyTree PyVal → AutogradCtx
  backward : AutogradCtx → List PyVal → List PyVal

/-- A _SingleLevelFunction: an autograd.Function that works with one
functorch level, given by its three static methods.  forward runs under
the current functorch state and may raise; every scoped state change it
makes is restored before it returns or raises, so only its result
escapes. -/
structure SingleLevelFunction where
  forward : FunctorchState → PyTree PyVal → Except PyError (PyTree PyVal)
  setup_context : AutogradCtx → PyTree PyVal → PyTree PyVal → AutogradCtx
  backward : AutogradCtx → List PyVal → List PyVal

/-- Modelled from the spec: applying a single-level differentiable
function runs its forward on the operands and returns forward's output;
the autograd-graph bookkeeping that also records setup_context and
backward for later use belongs to the external autograd engine. -/
def SingleLevelFunction.apply (g : SingleLevelFunction) (st : FunctorchState)
    (operands : PyTree PyVal) : Except PyError (PyTree PyVal) :=
  g.forward st operands

/-- The type of the redispatch continuation a synthesized forward uses:
re-enter custom_function_call on a given state with positional operands
only. -/
abbrev Redispatch : Type :=
  FunctorchState → AutogradFunction → PyTree PyVal → Except PyError (PyTree PyVal) × FunctorchState

/-- Generated.forward: unwrap every tensor leaf of the operands at the
handler's level; then, inside the scope `with torch.enable_grad(),
maybe_interpreter.lower():` (gradient recording on, stack lowered by one
for the duration, both restored on every exit path, including error
exits), redispatch the unwrapped operands through custom_function_call;
finally rewrap the output with wrap_outputs_maintaining_identity and
return it.  An error from the redispatch propagates unchanged. -/
def Generated_forward (redispatch : Redispatch) (interp : Interpreter)
    (af : AutogradFunction) (st : FunctorchState) (operands : PyTree PyVal) :
    Except PyError (PyTree PyVal) :=
  let level := interp.level
  let unwrapped_operands :=
    tree_map_only_tensor (fun x => unwrap_for_grad x level) operands
  let inner := redispatch
    { st with gradMode := true, stack := st.stack.tail } af unwrapped_operands
  match inner.1 with
  | Except.error e => Except.error e
  | Except.ok output =>
    Except.ok (wrap_outputs_maintaining_identity output unwrapped_operands operands level)

/-- The transient _SingleLevelFunction class Generated built inside
custom_function_call_grad: its forward is Generated_forward, and its
setup_context and backward delegate verbatim to the wrapped
autograd.Function descriptor. -/
def mkGenerated (redispatch : Redispatch) (interp : Interpreter)
    (af : AutogradFunction) : SingleLevelFunction :=
  { forward := Generated_forward redispatch interp af
    setup_context := fun ctx outputs operands => af.setup_context ctx outputs operands
    backward := fun ctx grads => af.backward ctx grads }

/-- custom_function_call_grad(interpreter, autograd_function, *operands):
build the Generated single-level function and, inside the scope
`with enable_autograd_function():` (flag set for the duration, restored
on every exit path), apply it to the original still-wrapped operands and
return its flattened output. -/
def custom_function_call_grad (redispatch : Redispatch) (interpreter : Interpreter)
    (af : AutogradFunction) (st : FunctorchState) (operands : PyTree PyVal) :
    Except PyError (PyTree PyVal) × FunctorchState :=
  let maybe_interpreter := interpreter
  let Generated := mkGenerated redispatch maybe_interpreter af
  let flat_out := Generated.apply { st with autogradFunctionAllowed := true } operands
  (flat_out, st)

/-- custom_function_call_vmap: stub handler, unconditionally raises. -/
def custom_function_call_vmap (_interpreter : Interpreter) (_af : AutogradFunction)
    (_operands : PyTree PyVal) : Except PyError (PyTree PyVal) :=
  Except.error (PyError.runtimeError ("NYI: vmap rule for custom_function_call"))

/-- custom_function_call_jvp: stub handler, unconditionally raises. -/
def custom_function_call_jvp (_interpreter : Interpreter) (_af : AutogradFunction)
    (_operands : PyTree PyVal) : Except PyError (PyTree PyVal) :=
  Except.error (PyError.runtimeError ("NYI: jvp rule for custom_function_call"))

/-- custom_function_call_functionalize: stub handler, unconditionally
raises. -/
def custom_function_call_functionalize (_interpreter : Interpreter) (_af : AutogradFunction)
    (_operands : PyTree PyVal) : Except PyError (PyTree PyVal) :=
  Except.error (PyError.runtimeError ("NYI: Functionalize rule for custom_function_call"))

/-- torch._C._are_functorch_transforms_active(): modelled from the spec,
true exactly when some transform layer is on the interpreter stack. -/
def are_functorch_transforms_active (st : FunctorchState) : Bool :=
  !st.stack.isEmpty

/-- CustomFunctionPyOperator.__call__ together with the PyOperator
dispatch it defers to when transforms are active.  The fast path (no
transform active) invokes autograd_function.apply(*args[1:], **kwargs)
directly.  Otherwise — modelled from the spec, since PyOperator.dispatch
lives outside this source file — the handler registered for the
top-of-stack transform type is called with the interpreter, the function
descriptor and the operands; the keyword arguments forwarded by
super().__call__(*args, **kwargs) can only bind if the handler accepts
them, and every registered handler takes positional operands only, so a
non-empty keyword set fails the call with a type error.  Fuel bounds the
redispatch recursion; it strictly exceeds the stack depth at every call
so the bound is never hit. -/
def custom_function_call_fuel :
    Nat → FunctorchState → AutogradFunction → PyTree PyVal → List (String × PyVal) →
    Except PyError (PyTree PyVal) × FunctorchState
  | 0, st, _, _, _ =>
    (Except.error (PyError.runtimeError ("maximum recursion depth exceeded")), st)
  | Nat.succ fuel, st, af, operands, kwargs =>
    match st.stack with
    | [] => (af.apply operands kwargs, st)
    | interpreter :: _rest =>
      if kwargs.isEmpty then
        match interpreter.ttype with
        | TransformType.Grad =>
          custom_function_call_grad
            (fun s2 af2 ops2 => custom_function_call_fuel fuel s2 af2 ops2 [])
            interpreter af st operands
        | TransformType.Vmap => (custom_function_call_vmap interpreter af operands, st)
        | TransformType.Jvp => (custom_function_call_jvp interpreter af operands, st)
        | TransformType.Functionalize =>
          (custom_function_call_functionalize interpreter af operands, st)
      else
        (Except.error (PyError.typeError ("got an unexpected keyword argument")), st)

/-- The dispatch operator custom_function_call, entered on a given
functorch state: runs the fueled dispatcher with fuel one more than the
stack depth, which every redispatch chain respects. -/
def custom_function_call (st : FunctorchState) (af : AutogradFunction)
    (operands : PyTree PyVal) (kwargs : List (String × PyVal)) :
    Except PyError (PyTree PyVal) × FunctorchState :=
  custom_function_call_fuel (st.stack.length + 1) st af operands kwargs

/-! Lemmas about the pytree utilities. -/

mutual

theorem flatten_length {α : Type} : ∀ t : PyTree α, t.flatten.length = t.spec.numLeaves
  | .leaf _ => rfl
  | .node cs => by
    simp only [PyTree.flatten, PyTree.spec, TreeSpec.numLeaves]
    exact flattenList_length cs

theorem flattenList_length {α : Type} :
    ∀ ts : List (PyTree α), (flattenList ts).length = numLeavesList (specList ts)
  | [] => rfl
  | t :: ts => by
    simp only [flattenList, specList, numLeavesList, List.length_append]
    rw [flatten_length t, flattenList_length ts]

end

mutual

theorem unflattenAux_eq : ∀ (s : TreeSpec) (xs ys : List PyVal),
    xs.length = s.numLeaves →
    (unflattenAux s (xs ++ ys)).1.flatten = xs ∧
      (unflattenAux s (xs ++ ys)).1.spec = s ∧
      (unflattenAux s (xs ++ ys)).2 = ys
  | .leaf, xs, ys, h => by
    match xs, h with
    | [x], _ =>
      simp [unflattenAux, PyTree.flatten, PyTree.spec]
  | .node ss, xs, ys, h => by
    have hl := unflattenListAux_eq ss xs ys (by simpa [TreeSpec.numLeaves] using h)
    simp only [unflattenAux, PyTree.flatten, PyTree.spec]
    exact ⟨hl.1, by rw [hl.2.1], hl.2.2⟩

theorem unflattenListAux_eq : ∀ (ss : List TreeSpec) (xs ys : List PyVal),
    xs.length = numLeavesList ss →
    flattenList (unflattenListAux ss (xs ++ ys)).1 = xs ∧
      specList (unflattenListAux ss (xs ++ ys)).1 = ss ∧
      (unflattenListAux ss (xs ++ ys)).2 = ys
  | [], xs, ys, h => by
    match xs, h with
    | [], _ =>
      simp [unflattenListAux, flattenList, specList]
  | s :: ss, xs, ys, h => by
    have hn : s.numLeaves ≤ xs.length := by
      rw [h]; simp [numLeavesList]
    have hsplit : xs ++ ys = xs.take s.numLeaves ++ (xs.drop s.numLeaves ++ ys) := by
      rw [← List.append_assoc, List.take_append_drop]
    have htake : (xs.take s.numLeaves).length = s.numLeaves :=
      List.length_take_of_le hn
    have hdrop : (xs.drop s.numLeaves).length = numLeavesList ss := by
      rw [List.length_drop, h, numLeavesList]
      omega
    have h1 := unflattenAux_eq s (xs.take s.numLeaves) (xs.drop s.numLeaves ++ ys) htake
    rw [hsplit]
    simp only [unflattenListAux]
    rw [h1.2.2]
    have h2 := unflattenListAux_eq ss (xs.drop s.numLeaves) ys hdrop
    simp only [flattenList, specList]
    refine ⟨?_, ?_, h2.2.2⟩
    · rw [h1.1, h2.1, List.take_append_drop]
    · rw [h1.2.1, h2.2.1]

end

theorem tree_unflatten_flatten (xs : List PyVal) (s : TreeSpec)
    (h : xs.length = s.numLeaves) :
    (tree_unflatten xs s).flatten = xs ∧ (tree_unflatten xs s).spec = s := by
  have h0 := unflattenAux_eq s xs [] h
  rw [List.append_nil] at h0
  exact ⟨h0.1, h0.2.1⟩

mutual

theorem tree_map_only_tensor_spec (f : Tensor → Tensor) :
    ∀ t : PyTree PyVal, (tree_map_only_tensor f t).spec = t.spec
  | .leaf _ => rfl
  | .node cs => by
    simp only [tree_map_only_tensor, PyTree.spec]
    rw [tree_map_only_tensor_list_spec f cs]

theorem tree_map_only_tensor_list_spec (f : Tensor → Tensor) :
    ∀ ts : List (PyTree PyVal),
      specList (tree_map_only_tensor_list f ts) = specList ts
  | [] => rfl
  | t :: ts => by
    simp only [tree_map_only_tensor_list, specList]
    rw [tree_map_only_tensor_spec f t, tree_map_only_tensor_list_spec f ts]

end

mutual

theorem tree_map_only_tensor_flatten (f : Tensor → Tensor) :
    ∀ t : PyTree PyVal,
      (tree_map_only_tensor f t).flatten = t.flatten.map (mapOnlyTensorLeaf f)
  | .leaf _ => rfl
  | .node cs => by
    simp only [tree_map_only_tensor, PyTree.flatten]
    exact tree_map_only_tensor_list_flatten f cs

theorem tree_map_only_tensor_list_flatten (f : Tensor → Tensor) :
    ∀ ts : List (PyTree PyVal),
      flattenList (tree_map_only_tensor_list f ts) = (flattenList ts).map (mapOnlyTensorLeaf f)
  | [] => rfl
  | t :: ts => by
    simp only [tree_map_only_tensor_list, flattenList, List.map_append]
    rw [tree_map_only_tensor_flatten f t, tree_map_only_tensor_list_flatten f ts]

end

/-! Lemmas about the identity dict. -/

theorem dictFind_eq_none_of (m : List (Nat × PyVal)) (k : Nat)
    (h : ∀ p ∈ m, p.1 ≠ k) : dictFind m k = none := by
  induction m with
  | nil => rfl
  | cons e rest ih =>
    have hrest : dictFind rest k = none := ih (fun p hp => h p (List.mem_cons_of_mem e hp))
    have he : e.1 ≠ k := h e (List.mem_cons_self e rest)
    simp [dictFind, hrest, he]

theorem mem_of_dictFind_eq_some {m : List (Nat × PyVal)} {k : Nat} {v : PyVal}
    (h : dictFind m k = some v) : (k, v) ∈ m := by
  induction m with
  | nil => simp [dictFind] at h
  | cons e rest ih =>
    simp only [dictFind] at h
    split at h
    · rename_i w hw
      injection h with h
      subst h
      exact List.mem_cons_of_mem e (ih hw)
    · rename_i hw
      split at h
      · rename_i he
        injection h with h
        have hkv : (k, v) = e := Prod.ext he.symm h.symm
        rw [hkv]
        exact List.mem_cons_self e rest
      · simp at h

theorem dictFind_isSome_of_mem {m : List (Nat × PyVal)} {k : Nat}
    (h : ∃ p ∈ m, p.1 = k) : ∃ v, dictFind m k = some v := by
  induction m with
  | nil => obtain ⟨p, hp, _⟩ := h; simp at hp
  | cons e rest ih =>
    simp only [dictFind]
    cases hr : dictFind rest k with
    | some w => exact ⟨w, rfl⟩
    | none =>
      obtain ⟨p, hp, hpk⟩ := h
      rcases List.mem_cons.mp hp with he | hrest
      · have hek : e.1 = k := he ▸ hpk
        exact ⟨e.2, by simp [hek]⟩
      · obtain ⟨v, hv⟩ := ih ⟨p, hrest, hpk⟩
        rw [hv] at hr
        exact absurd hr (by simp)

theorem dictFind_of_last {m : List (Nat × PyVal)} {i : Nat} {k : Nat} {v : PyVal}
    (h1 : m[i]? = some (k, v))
    (h2 : ∀ j p, i < j → m[j]? = some p → p.1 ≠ k) :
    dictFind m k = some v := by
  induction m generalizing i with
  | nil => simp at h1
  | cons e rest ih =>
    cases i with
    | zero =>
      simp only [List.getElem?_cons_zero, Option.some.injEq] at h1
      have hnone : dictFind rest k = none := by
        apply dictFind_eq_none_of
        intro p hp
        obtain ⟨j, hj⟩ := List.mem_iff_getElem?.mp hp
        exact h2 (j + 1) p (Nat.succ_pos j) (by simpa using hj)
      subst h1
      simp [dictFind, hnone]
    | succ i0 =>
      simp only [List.getElem?_cons_succ] at h1
      have hrest : dictFind rest k = some v := by
        apply ih h1
        intro j p hj hp
        exact h2 (j + 1) p (Nat.succ_lt_succ hj) (by simpa using hp)
      simp [dictFind, hrest]

/-! Characterization of wrap_outputs_maintaining_identity in terms of
its flattened inputs and outputs. -/

theorem wrap_outputs_flatten (outputs u o : PyTree PyVal) (level : Nat) :
    (wrap_outputs_maintaining_identity outputs u o level).flatten
        = outputs.flatten.map (wrap_one (unwrapped_input_to_orig_input u o) level) ∧
      (wrap_outputs_maintaining_identity outputs u o level).spec = outputs.spec := by
  have hlen : (outputs.flatten.map (wrap_one (unwrapped_input_to_orig_input u o) level)).length
      = outputs.spec.numLeaves := by
    rw [List.length_map, flatten_length]
  exact tree_unflatten_flatten _ _ hlen

/-! Concrete fixtures used by the witness theorems. -/

/-- A concrete autograd.Function descriptor: identity forward. -/
def exampleFunction : AutogradFunction where
  apply := fun ops _ => Except.ok ops
  setup_context := fun ctx _ _ => ctx
  backward := fun _ grads => grads

/-- The functorch state with no transform active. -/
def emptyState : FunctorchState where
  stack := []
  gradMode := false
  autogradFunctionAllowed := false

/-- A Grad interpreter at level 1. -/
def gradLayer : Interpreter where
  level := 1
  ttype := TransformType.Grad

/-- A state with a single Grad layer active. -/
def gradState : FunctorchState where
  stack := [gradLayer]
  gradMode := false
  autogradFunctionAllowed := false

/-- A Vmap interpreter at level 1. -/
def vmapLayer : Interpreter where
  level := 1
  ttype := TransformType.Vmap

/-- A state with a single Vmap layer active. -/
def vmapState : FunctorchState where
  stack := [vmapLayer]
  gradMode := false
  autogradFunctionAllowed := false

/-- Unwrapped-input tree for the identity-preservation witnesses: one
tensor object with id 3. -/
def uIdent : PyTree PyVal :=
  PyTree.node [PyTree.leaf (PyVal.tensor (Tensor.base 3))]

/-- Original-input tree for the identity-preservation witnesses: the
still-wrapped input object corresponding to uIdent. -/
def oIdent : PyTree PyVal :=
  PyTree.node [PyTree.leaf (PyVal.tensor (Tensor.wrapper 10 1 (Tensor.base 3)))]

/-- An output tree that is object-identical to the unwrapped input. -/
def outIdent : PyTree PyVal :=
  PyTree.leaf (PyVal.tensor (Tensor.base 3))

/-- Unwrapped inputs for the duplicate-identity witness: the SAME tensor
object (id 3) appears at two input positions. -/
def uDup : PyTree PyVal :=
  PyTree.node
    [PyTree.leaf (PyVal.tensor (Tensor.base 3)),
     PyTree.leaf (PyVal.tensor (Tensor.base 3))]

/-- Original inputs for the duplicate-identity witness: two distinct
wrapper objects. -/
def oDup : PyTree PyVal :=
  PyTree.node
    [PyTree.leaf (PyVal.tensor (Tensor.wrapper 10 1 (Tensor.base 3))),
     PyTree.leaf (PyVal.tensor (Tensor.wrapper 12 1 (Tensor.base 3)))]

/-! The claims. -/

/-- C1.  Bypass property: whenever the global transform-active check
reports that no functorch transforms are active, custom_function_call
returns exactly the result of autograd_function.apply on the same
operands and keyword arguments, with the state untouched and no
wrapping applied. -/
theorem claim_C1_bypass (st : FunctorchState) (af : AutogradFunction)
    (operands : PyTree PyVal) (kwargs : List (String × PyVal))
    (h : are_functorch_transforms_active st = false) :
    custom_function_call st af operands kwargs = (af.apply operands kwargs, st) := by
  have hstack : st.stack = [] := by
    cases hs : st.stack with
    | nil => rfl
    | cons a l =>
      rw [are_functorch_transforms_active, hs] at h
      simp at h
  obtain ⟨stk, gm, aaf⟩ := st
  dsimp only at hstack
  subst hstack
  rfl

/-- Witness for C1 at a concrete input. -/
theorem claim_C1_bypass_witness :
    are_functorch_transforms_active emptyState = false ∧
      custom_function_call emptyState exampleFunction (PyTree.leaf (PyVal.const 7)) []
        = (exampleFunction.apply (PyTree.leaf (PyVal.const 7)) [], emptyState) :=
  ⟨rfl, claim_C1_bypass emptyState exampleFunction (PyTree.leaf (PyVal.const 7)) [] rfl⟩

/-- C2.  Identity-preserving output wrapping: a flattened tensor output
whose object id matches the object id of some flattened unwrapped input
is emitted as the co-indexed original (possibly still-wrapped) input
object itself — never a fresh wrapper; a tensor output matching no
input id is wrapped fresh at the level. -/
theorem claim_C2_identity_preserving_wrap
    (outputs u o : PyTree PyVal) (level j : Nat) (t : Tensor)
    (hj : outputs.flatten[j]? = some (PyVal.tensor t)) :
    ((∃ p ∈ u.flatten.zip o.flatten, PyVal.oid p.1 = PyVal.oid (PyVal.tensor t)) →
      ∃ (i : Nat) (p : PyVal × PyVal), (u.flatten.zip o.flatten)[i]? = some p ∧
        PyVal.oid p.1 = PyVal.oid (PyVal.tensor t) ∧
        (wrap_outputs_maintaining_identity outputs u o level).flatten[j]? = some p.2) ∧
    ((∀ p ∈ u.flatten.zip o.flatten, PyVal.oid p.1 ≠ PyVal.oid (PyVal.tensor t)) →
      (wrap_outputs_maintaining_identity outputs u o level).flatten[j]?
        = some (PyVal.tensor (wrap_for_grad t level))) := by
  have hres := (wrap_outputs_flatten outputs u o level).1
  constructor
  · intro hmatch
    have hdict : ∃ q ∈ unwrapped_input_to_orig_input u o,
        q.1 = PyVal.oid (PyVal.tensor t) := by
      obtain ⟨p, hp, hpk⟩ := hmatch
      exact ⟨(PyVal.oid p.1, p.2), List.mem_map_of_mem _ hp, hpk⟩
    obtain ⟨v, hv⟩ := dictFind_isSome_of_mem hdict
    have hmem := mem_of_dictFind_eq_some hv
    rw [unwrapped_input_to_orig_input] at hmem
    obtain ⟨p, hpzip, hpe⟩ := List.mem_map.mp hmem
    obtain ⟨i, hi⟩ := List.mem_iff_getElem?.mp hpzip
    have hfst : PyVal.oid p.1 = PyVal.oid (PyVal.tensor t) := congrArg Prod.fst hpe
    have hsnd : p.2 = v := congrArg Prod.snd hpe
    refine ⟨i, p, hi, hfst, ?_⟩
    rw [hres, List.getElem?_map, hj, Option.map_some', hsnd]
    simp [wrap_one, hv]
  · intro hnone
    have hdnone : dictFind (unwrapped_input_to_orig_input u o)
        (PyVal.oid (PyVal.tensor t)) = none := by
      apply dictFind_eq_none_of
      intro q hq
      rw [unwrapped_input_to_orig_input] at hq
      obtain ⟨p, hpzip, hpe⟩ := List.mem_map.mp hq
      rw [← hpe]
      simpa using hnone p hpzip
    rw [hres, List.getElem?_map, hj, Option.map_some']
    simp [wrap_one, hdnone]

/-- Witness for C2 at a concrete input: the output is object-identical
to the unwrapped input, and the emitted element is the original wrapped
input object. -/
theorem claim_C2_identity_preserving_wrap_witness :
    outIdent.flatten[0]? = some (PyVal.tensor (Tensor.base 3)) ∧
      (∃ p ∈ uIdent.flatten.zip oIdent.flatten,
        PyVal.oid p.1 = PyVal.oid (PyVal.tensor (Tensor.base 3))) ∧
      (∃ (i : Nat) (p : PyVal × PyVal), (uIdent.flatten.zip oIdent.flatten)[i]? = some p ∧
        PyVal.oid p.1 = PyVal.oid (PyVal.tensor (Tensor.base 3)) ∧
        (wrap_outputs_maintaining_identity outIdent uIdent oIdent 1).flatten[0]? = some p.2) :=
  ⟨rfl, by decide,
    (claim_C2_identity_preserving_wrap outIdent uIdent oIdent 1 0 (Tensor.base 3) rfl).1
      (by decide)⟩

/-- C3.  The synthesized forward, seen through the dispatch operator
with a Grad layer on top: it unwraps every tensor leaf of the operands
at the handler's level, redispatches the unwrapped operands through
custom_function_call in a scope with gradient recording enabled and the
interpreter lowered (stack popped by one for the duration), applies the
identity-preserving output wrapper to the result, and restores the
state. -/
theorem claim_C3_generated_forward
    (st : FunctorchState) (layer : Interpreter) (rest : List Interpreter)
    (af : AutogradFunction) (operands : PyTree PyVal)
    (hstack : st.stack = layer :: rest) (hty : layer.ttype = TransformType.Grad) :
    custom_function_call st af operands [] =
      ((let unwrapped :=
          tree_map_only_tensor (fun x => unwrap_for_grad x layer.level) operands
        let inner := custom_function_call
          { st with gradMode := true, autogradFunctionAllowed := true, stack := rest }
          af unwrapped []
        match inner.1 with
        | Except.error e => Except.error e
        | Except.ok output =>
          Except.ok (wrap_outputs_maintaining_identity output unwrapped operands layer.level)),
       st) := by
  obtain ⟨lvl, tt⟩ := layer
  obtain ⟨stk, gm, aaf⟩ := st
  dsimp only at hstack hty
  subst hty
  subst hstack
  rfl

/-- Witness for C3 at a concrete input. -/
theorem claim_C3_generated_forward_witness :
    gradState.stack = [gradLayer] ∧ gradLayer.ttype = TransformType.Grad ∧
      custom_function_call gradState exampleFunction (PyTree.leaf (PyVal.const 7)) [] =
        ((let unwrapped := tree_map_only_tensor
            (fun x => unwrap_for_grad x gradLayer.level) (PyTree.leaf (PyVal.const 7))
          let inner := custom_function_call
            { gradState with gradMode := true, autogradFunctionAllowed := true, stack := [] }
            exampleFunction unwrapped []
          match inner.1 with
          | Except.error e => Except.error e
          | Except.ok output =>
            Except.ok (wrap_outputs_maintaining_identity output unwrapped
              (PyTree.leaf (PyVal.const 7)) gradLayer.level)),
         gradState) :=
  ⟨rfl, rfl,
    claim_C3_generated_forward gradState gradLayer [] exampleFunction
      (PyTree.leaf (PyVal.const 7)) rfl rfl⟩

/-- C4.  Each of the three stub handlers unconditionally raises an
explicit not-implemented error naming the unsupported transform, for
every interpreter, function descriptor and operand list; none returns a
value or performs partial work. -/
theorem claim_C4_stub_handlers_raise (interp : Interpreter) (af : AutogradFunction)
    (operands : PyTree PyVal) :
    custom_function_call_vmap interp af operands
        = Except.error (PyError.runtimeError ( "NYI: vmap rule for custom_function_call")) ∧
      custom_function_call_jvp interp af operands
        = Except.error (PyError.runtimeError ( "NYI: jvp rule for custom_function_call")) ∧
      custom_function_call_functionalize interp af operands
        = Except.error (PyError.runtimeError ( "NYI: Functionalize rule for custom_function_call")) :=
  ⟨rfl, rfl, rfl⟩

/-- C5.  Non-tensor passthrough: non-tensor leaves pass through the
unwrap step (tree_map_only over tensor leaves) and through the output
wrapper unchanged and in the same flattened position, with the tree
structure preserved by both. -/
theorem claim_C5_non_tensor_passthrough
    (f : Tensor → Tensor) (ops outputs u o : PyTree PyVal) (level j : Nat) (c : Int) :
    ((tree_map_only_tensor f ops).spec = ops.spec) ∧
      (ops.flatten[j]? = some (PyVal.const c) →
        (tree_map_only_tensor f ops).flatten[j]? = some (PyVal.const c)) ∧
      ((wrap_outputs_maintaining_identity outputs u o level).spec = outputs.spec) ∧
      (outputs.flatten[j]? = some (PyVal.const c) →
        (wrap_outputs_maintaining_identity outputs u o level).flatten[j]?
          = some (PyVal.const c)) := by
  refine ⟨tree_map_only_tensor_spec f ops, ?_,
    (wrap_outputs_flatten outputs u o level).2, ?_⟩
  · intro h
    rw [tree_map_only_tensor_flatten, List.getElem?_map, h, Option.map_some']
    rfl
  · intro h
    rw [(wrap_outputs_flatten outputs u o level).1, List.getElem?_map, h, Option.map_some']
    rfl

/-- Witness for C5 at a concrete input: an integer leaf next to a
tensor leaf survives both the unwrap step and the output wrapper at
position 0. -/
theorem claim_C5_non_tensor_passthrough_witness :
    (PyTree.node [PyTree.leaf (PyVal.const 5),
        PyTree.leaf (PyVal.tensor (Tensor.base 0))]).flatten[0]? = some (PyVal.const 5) ∧
      (tree_map_only_tensor (fun x => unwrap_for_grad x 1)
        (PyTree.node [PyTree.leaf (PyVal.const 5),
          PyTree.leaf (PyVal.tensor (Tensor.base 0))])).flatten[0]? = some (PyVal.const 5) ∧
      (wrap_outputs_maintaining_identity
        (PyTree.node [PyTree.leaf (PyVal.const 5),
          PyTree.leaf (PyVal.tensor (Tensor.base 0))]) uIdent oIdent 1).flatten[0]?
        = some (PyVal.const 5) :=
  ⟨rfl,
    (claim_C5_non_tensor_passthrough (fun x => unwrap_for_grad x 1)
      (PyTree.node [PyTree.leaf (PyVal.const 5), PyTree.leaf (PyVal.tensor (Tensor.base 0))])
      (PyTree.node [PyTree.leaf (PyVal.const 5), PyTree.leaf (PyVal.tensor (Tensor.base 0))])
      uIdent oIdent 1 0 5).2.1 rfl,
    (claim_C5_non_tensor_passthrough (fun x => unwrap_for_grad x 1)
      (PyTree.node [PyTree.leaf (PyVal.const 5), PyTree.leaf (PyVal.tensor (Tensor.base 0))])
      (PyTree.node [PyTree.leaf (PyVal.const 5), PyTree.leaf (PyVal.tensor (Tensor.base 0))])
      uIdent oIdent 1 0 5).2.2.2 rfl⟩

/-- C6.  Verbatim delegation: the synthesized Generated function's
setup_context and backward return exactly what the original descriptor's
setup_context and backward return on the same arguments. -/
theorem claim_C6_verbatim_delegation (redispatch : Redispatch) (interp : Interpreter)
    (af : AutogradFunction) (ctx : AutogradCtx) (outputs operands : PyTree PyVal)
    (grads : List PyVal) :
    (mkGenerated redispatch interp af).setup_context ctx outputs operands
        = af.setup_context ctx outputs operands ∧
      (mkGenerated redispatch interp af).backward ctx grads = af.backward ctx grads :=
  ⟨rfl, rfl⟩

/-- C7.  The Grad-transform handler applies the synthesized Generated
function to the original (still-wrapped) operands — not the unwrapped
ones — inside the enable_autograd_function scope, and returns the
flattened output of that application with the state restored. -/
theorem claim_C7_grad_handler_applies_generated
    (st : FunctorchState) (layer : Interpreter) (rest : List Interpreter)
    (af : AutogradFunction) (operands : PyTree PyVal)
    (hstack : st.stack = layer :: rest) (hty : layer.ttype = TransformType.Grad) :
    custom_function_call st af operands [] =
      ((mkGenerated (fun s2 af2 ops2 => custom_function_call s2 af2 ops2 []) layer af).apply
          { st with autogradFunctionAllowed := true } operands,
       st) := by
  obtain ⟨lvl, tt⟩ := layer
  obtain ⟨stk, gm, aaf⟩ := st
  dsimp only at hstack hty
  subst hty
  subst hstack
  rfl

/-- Witness for C7 at a concrete input. -/
theorem claim_C7_grad_handler_applies_generated_witness :
    gradState.stack = [gradLayer] ∧ gradLayer.ttype = TransformType.Grad ∧
      custom_function_call gradState exampleFunction (PyTree.leaf (PyVal.const 7)) [] =
        ((mkGenerated (fun s2 af2 ops2 => custom_function_call s2 af2 ops2 [])
            gradLayer exampleFunction).apply
            { gradState with autogradFunctionAllowed := true } (PyTree.leaf (PyVal.const 7)),
         gradState) :=
  ⟨rfl, rfl,
    claim_C7_grad_handler_applies_generated gradState gradLayer [] exampleFunction
      (PyTree.leaf (PyVal.const 7)) rfl rfl⟩

/-- C8.  Stub failure atomicity: dispatching with Vmap, Jvp or
Functionalize on top of the stack yields the unsupported-transform
error, and the functorch state (in particular the interpreter stack) is
exactly what it was before the call. -/
theorem claim_C8_stub_stack_unchanged
    (st : FunctorchState) (layer : Interpreter) (rest : List Interpreter)
    (af : AutogradFunction) (operands : PyTree PyVal)
    (hstack : st.stack = layer :: rest)
    (hty : layer.ttype = TransformType.Vmap ∨ layer.ttype = TransformType.Jvp ∨
      layer.ttype = TransformType.Functionalize) :
    ∃ msg, custom_function_call st af operands []
      = (Except.error (PyError.runtimeError msg), st) := by
  obtain ⟨lvl, tt⟩ := layer
  obtain ⟨stk, gm, aaf⟩ := st
  dsimp only at hstack hty
  subst hstack
  rcases hty with h | h | h
  · subst h
    exact ⟨ "NYI: vmap rule for custom_function_call", rfl⟩
  · subst h
    exact ⟨ "NYI: jvp rule for custom_function_call", rfl⟩
  · subst h
    exact ⟨ "NYI: Functionalize rule for custom_function_call", rfl⟩

/-- Witness for C8 at a concrete input. -/
theorem claim_C8_stub_stack_unchanged_witness :
    vmapState.stack = [vmapLayer] ∧
      ∃ msg, custom_function_call vmapState exampleFunction (PyTree.leaf (PyVal.const 0)) []
        = (Except.error (PyError.runtimeError msg), vmapState) :=
  ⟨rfl,
    claim_C8_stub_stack_unchanged vmapState vmapLayer [] exampleFunction
      (PyTree.leaf (PyVal.const 0)) rfl (Or.inl rfl)⟩

/-- C9.  The dispatch operator forwards keyword arguments into
transform dispatch, but the registered Grad handler accepts only
positional operands, so a call carrying a non-empty keyword set while a
Grad transform is active fails with a type error instead of delivering
the keyword arguments to the handler. -/
theorem claim_C9_kwargs_rejected_under_grad
    (st : FunctorchState) (layer : Interpreter) (rest : List Interpreter)
    (af : AutogradFunction) (operands : PyTree PyVal) (kwargs : List (String × PyVal))
    (hstack : st.stack = layer :: rest) (hty : layer.ttype = TransformType.Grad)
    (hkw : kwargs ≠ []) :
    ∃ msg, custom_function_call st af operands kwargs
      = (Except.error (PyError.typeError msg), st) := by
  obtain ⟨lvl, tt⟩ := layer
  obtain ⟨stk, gm, aaf⟩ := st
  dsimp only at hstack hty
  subst hty
  subst hstack
  match kwargs, hkw with
  | kv :: kvs, _ =>
    exact ⟨ "got an unexpected keyword argument", rfl⟩

/-- Witness for C9 at a concrete input. -/
theorem claim_C9_kwargs_rejected_under_grad_witness :
    gradState.stack = [gradLayer] ∧ gradLayer.ttype = TransformType.Grad ∧
      ([( "alpha", PyVal.const 1)] : List (String × PyVal)) ≠ [] ∧
      ∃ msg, custom_function_call gradState exampleFunction (PyTree.leaf (PyVal.const 0))
          [( "alpha", PyVal.const 1)]
        = (Except.error (PyError.typeError msg), gradState) :=
  ⟨rfl, rfl, List.cons_ne_nil _ _,
    claim_C9_kwargs_rejected_under_grad gradState gradLayer [] exampleFunction
      (PyTree.leaf (PyVal.const 0)) [( "alpha", PyVal.const 1)] rfl rfl
      (List.cons_ne_nil _ _)⟩

/-- C10.  The identity dict is built by a comprehension over the zipped
flattened inputs, so when the same unwrapped object id occurs at two
input positions, the later binding overwrites the earlier one: an
output identical to that object is replaced by the original input at
the LAST such position. -/
theorem claim_C10_duplicate_identity_last_wins
    (outputs u o : PyTree PyVal) (level j i1 i2 : Nat) (t : Tensor)
    (p1 p2 : PyVal × PyVal)
    (hj : outputs.flatten[j]? = some (PyVal.tensor t))
    (h1 : (u.flatten.zip o.flatten)[i1]? = some p1)
    (h2 : (u.flatten.zip o.flatten)[i2]? = some p2)
    (h12 : i1 < i2)
    (hk1 : PyVal.oid p1.1 = PyVal.oid (PyVal.tensor t))
    (hk2 : PyVal.oid p2.1 = PyVal.oid (PyVal.tensor t))
    (hlast : ∀ p ∈ (u.flatten.zip o.flatten).drop (i2 + 1),
      PyVal.oid p.1 ≠ PyVal.oid (PyVal.tensor t)) :
    (wrap_outputs_maintaining_identity outputs u o level).flatten[j]? = some p2.2 := by
  have hres := (wrap_outputs_flatten outputs u o level).1
  have hdict : dictFind (unwrapped_input_to_orig_input u o)
      (PyVal.oid (PyVal.tensor t)) = some p2.2 := by
    apply dictFind_of_last (i := i2)
    · rw [unwrapped_input_to_orig_input, List.getElem?_map, h2, Option.map_some', hk2]
    · intro j2 q hj2 hq
      rw [unwrapped_input_to_orig_input, List.getElem?_map] at hq
      cases hz : (u.flatten.zip o.flatten)[j2]? with
      | none => rw [hz] at hq; simp at hq
      | some pz =>
        rw [hz, Option.map_some'] at hq
        have hmem : pz ∈ (u.flatten.zip o.flatten).drop (i2 + 1) := by
          apply List.getElem?_mem (n := j2 - (i2 + 1))
          rw [List.getElem?_drop]
          have harith : i2 + 1 + (j2 - (i2 + 1)) = j2 := by omega
          rw [harith, hz]
        have hne := hlast pz hmem
        injection hq with hq2
        subst hq2
        simpa using hne
  rw [hres, List.getElem?_map, hj, Option.map_some']
  simp [wrap_one, hdict]

/-- Witness for C10 at a concrete input: the same tensor object appears
at input positions 0 and 1; the output identical to it is replaced by
the original at position 1, not position 0. -/
theorem claim_C10_duplicate_identity_last_wins_witness :
    outIdent.flatten[0]? = some (PyVal.tensor (Tensor.base 3)) ∧
      (uDup.flatten.zip oDup.flatten)[0]?
        = some (PyVal.tensor (Tensor.base 3), PyVal.tensor (Tensor.wrapper 10 1 (Tensor.base 3))) ∧
      (uDup.flatten.zip oDup.flatten)[1]?
        = some (PyVal.tensor (Tensor.base 3), PyVal.tensor (Tensor.wrapper 12 1 (Tensor.base 3))) ∧
      (wrap_outputs_maintaining_identity outIdent uDup oDup 1).flatten[0]?
        = some (PyVal.tensor (Tensor.wrapper 12 1 (Tensor.base 3))) :=
  ⟨rfl, rfl, rfl,
    claim_C10_duplicate_identity_last_wins outIdent uDup oDup 1 0 0 1 (Tensor.base 3)
      (PyVal.tensor (Tensor.base 3), PyVal.tensor (Tensor.wrapper 10 1 (Tensor.base 3)))
      (PyVal.tensor (Tensor.base 3), PyVal.tensor (Tensor.wrapper 12 1 (Tensor.base 3)))
      rfl rfl rfl (by decide) rfl rfl (by decide)⟩

end Functorch
